import Mathlib

/-!
Verification of the padlock record/collection/store module.

The source (`collection.js`-style module) defines three components:
`Collection.add` (last-write-wins merge keyed by uuid), `Collection.remove`
(tombstoning), `Collection.lock`, and a `Store` that encrypts/decrypts a
collection's record list and persists it through a `Source`, plus
`Collection.sync`, a three-phase fetch/save/save coordination.

Records are JS objects; absent attributes are modelled as `none`.
The uuid index (`this.uuidMap`) is a JS object, modelled as an association
list with unique keys (`mapSet` replaces in place).  JS aliasing (the same
record object being referenced from both `records` and `uuidMap`, so that
an in-place mutation such as `remove` is visible through both) is modelled
by value-based replacement in both structures.
-/

namespace Padlock

/-- A `{name, value, masked}` entry of a record's `fields` array. -/
structure RField where
  name : Option String
  value : Option String
  masked : Option Bool
deriving DecidableEq, Repr

/-- A record object.  `none` models an absent (deleted / never set) JS
attribute.  `updated` timestamps are modelled as naturals (ISO-8601 strings
compare lexicographically, i.e. chronologically). -/
structure Record where
  uuid : Option String
  name : Option String
  fields : Option (List RField)
  tags : Option (List String)
  updated : Option Nat
  removed : Option Bool
deriving DecidableEq, Repr

/-- Lookup in a JS-object-like association list (first matching key). -/
def mapGet {A : Type} : List (String × A) → String → Option A
  | [], _ => none
  | (k, v) :: rest, key => if k = key then some v else mapGet rest key

/-- Assignment `obj[key] = val` on a JS-object-like association list:
replaces the value in place if the key is present, appends otherwise. -/
def mapSet {A : Type} : List (String × A) → String → A → List (String × A)
  | [], key, val => [(key, val)]
  | (k, v) :: rest, key, val =>
    if k = key then (key, val) :: rest else (k, v) :: mapSet rest key val

/-- `records[records.indexOf(existing)] = r`: replaces the first occurrence
of `old`; when `old` is absent (`indexOf` returns `-1`) the array's indexed
elements are unchanged (`records[-1] = r` only sets a non-index property). -/
def replaceFirst : List Record → Record → Record → List Record
  | [], _, _ => []
  | x :: xs, old, new => if x = old then new :: xs else x :: replaceFirst xs old new

/-- The collection: an ordered record sequence plus the uuid index
(`this.uuidMap`). -/
structure Collection where
  name : String
  records : List Record
  uuidMap : List (String × Record)
deriving DecidableEq, Repr

/-- `new Collection(name)`: empty records, empty uuid index. -/
def Collection.mk0 (name : String) : Collection :=
  { name := name, records := [], uuidMap := [] }

/-- The condition `existing && r.updated && r.updated > existing.updated`
(given `existing` truthy): a JS `>` comparison against an absent timestamp
is false (`NaN` comparison), so the incoming record wins only when both
timestamps are present and the incoming one is strictly later. -/
def shouldReplace (r existing : Record) : Bool :=
  match r.updated, existing.updated with
  | some t, some t' => t' < t
  | _, _ => false

/-- `r.uuid = r.uuid || util.uuid()`: an absent or empty (falsy) uuid is
replaced by a freshly generated one, modelled by a supply `gen` indexed by
the position in the added batch. -/
def resolveUuid (r : Record) (gen : Nat → String) (i : Nat) : String :=
  match r.uuid with
  | some s => if s = "" then gen i else s
  | none => gen i

/-- The body of `Collection.add`'s `forEach` loop.  Entries are the values
of the (parsed) input array; `none` models a non-object entry such as JS
`null`, on which the uuid assignment throws a `TypeError`: the loop stops,
the live `uuidMap` keeps the updates already made, and (per `add` below)
`this.records` is never reassigned.  Returns the final uuid map, the local
`records` copy, and whether the loop ran to completion. -/
def addLoop (gen : Nat → String) :
    List (String × Record) → List Record → List (Option Record) → Nat →
    List (String × Record) × List Record × Bool
  | m, recs, [], _ => (m, recs, true)
  | m, recs, none :: _, _ => (m, recs, false)
  | m, recs, some r :: rest, i =>
    let u := resolveUuid r gen i
    let r' := { r with uuid := some u }
    match mapGet m u with
    | some existing =>
      if shouldReplace r' existing then
        addLoop gen (mapSet m u r') (replaceFirst recs existing r') rest (i + 1)
      else
        addLoop gen m recs rest (i + 1)
    | none => addLoop gen (mapSet m u r') (recs ++ [r']) rest (i + 1)

/-- `Collection.add` over raw entries: works on a snapshot copy
(`this.records.slice()`) of the record sequence and commits it only after
the loop finishes; the uuid map is mutated live.  The `Bool` reports
whether the call completed (no exception). -/
def Collection.addRaw (c : Collection) (entries : List (Option Record))
    (gen : Nat → String) : Collection × Bool :=
  match addLoop gen c.uuidMap c.records entries 0 with
  | (m, recs, true) => ({ c with uuidMap := m, records := recs }, true)
  | (m, _, false) => ({ c with uuidMap := m }, false)

/-- `Collection.add` on a proper array of record objects. -/
def Collection.add (c : Collection) (rs : List Record) (gen : Nat → String) :
    Collection :=
  (c.addRaw (rs.map some) gen).1

/-- The tombstone `remove` leaves behind: every attribute except `uuid`
deleted, then `updated = new Date()` (modelled as `now`) and
`removed = true`. -/
def removeRecord (rec : Record) (now : Nat) : Record :=
  { uuid := rec.uuid, name := none, fields := none, tags := none,
    updated := some now, removed := some true }

/-- `Collection.remove` mutates the record object in place; through JS
aliasing the mutation is visible wherever the object is referenced, i.e.
in `records` and in `uuidMap`.  The record is not deleted from the
sequence. -/
def Collection.remove (c : Collection) (rec : Record) (now : Nat) : Collection :=
  { c with
    records := c.records.map (fun x => if x = rec then removeRecord rec now else x),
    uuidMap := c.uuidMap.map
      (fun kv => if kv.2 = rec then (kv.1, removeRecord rec now) else kv) }

/-- Errors a `fetch`/`save`/`sync` call can surface through its `fail`
callback.  `srcNotFound` / `srcUnavailable` come from the `Source`
(modelled from the spec: `get(key)` fails with `NotFound` if the key is
absent, `Unavailable` on I/O error); `authenticationFailed` is the
exception thrown by `crypto.pwdDecrypt` on a wrong password (modelled from
the spec: the codec is authenticated, a wrong password is detected);
`dataCorrupted` is a `JSON.parse` failure on decrypted plaintext. -/
inductive OpErr where
  | srcNotFound
  | srcUnavailable
  | authenticationFailed
  | dataCorrupted
deriving DecidableEq, Repr

section StoreModel

/- Modelled from the spec: the encryption codec (`padlock/crypto`) and the
JSON serialization are external collaborators; `α` is the plaintext
representation of a record list and `β` the opaque ciphertext blob.  The
password slot is `Option String` because the store's password may be JS
`null` (after `lock`). -/
variable {α β : Type}
variable (encrypt : Option String → α → β)
variable (decrypt : Option String → β → Option α)
variable (stringify : List Record → α)
variable (parse : α → Option (List Record))

/-- A `Source`: byte-oriented key/value persistence (modelled from the
spec's contract, §6); `online = false` makes every operation fail with
`Unavailable`. -/
structure Source (β : Type) where
  data : List (String × β)
  online : Bool
deriving DecidableEq, Repr

/-- `get(key) -> bytes | NotFound | Unavailable` (modelled from the spec). -/
def Source.get (s : Source β) (key : String) : Except OpErr β :=
  if s.online then
    match mapGet s.data key with
    | some b => .ok b
    | none => .error .srcNotFound
  else .error .srcUnavailable

/-- `set(key, bytes) -> () | Unavailable`, atomic (modelled from the
spec); returns the updated source. -/
def Source.set (s : Source β) (key : String) (b : β) : Except OpErr (Source β) :=
  if s.online then .ok { s with data := mapSet s.data key b }
  else .error .srcUnavailable

/-- The `Store`: default source plus the cached password (initially `""`,
may be set to `null` by `lock`). -/
structure Store (β : Type) where
  defaultSource : Source β
  password : Option String
deriving DecidableEq, Repr

/-- `Store.getKey`: `"coll_" + coll.name`. -/
def Store.getKey (coll : Collection) : String :=
  "coll_" ++ coll.name

/-- `opts.password !== undefined && opts.password !== null ? opts.password
: this.password`. -/
def resolvePassword (optPwd : Option String) (stored : Option String) :
    Option String :=
  match optPwd with
  | some p => some p
  | none => stored

/-- `Store.fetch`: resolves the password, reads the blob from the source,
decrypts and parses it inside a try/catch, and merges the parsed records
into the collection via `coll.add`.  The resolved password is cached on
the store unconditionally (`this.password = password` runs after the
source call is initiated, whether or not the fetch succeeds).  Returns the
updated store, the (merged or unchanged) collection, and the outcome. -/
def Store.fetchOp (st : Store β) (coll : Collection) (src : Source β)
    (optPwd : Option String) (gen : Nat → String) :
    Store β × Collection × Except OpErr Unit :=
  let password := resolvePassword optPwd st.password
  let st' := { st with password := password }
  match src.get (Store.getKey coll) with
  | .error e => (st', coll, .error e)
  | .ok data =>
    match decrypt password data with
    | none => (st', coll, .error .authenticationFailed)
    | some pt =>
      match parse pt with
      | none => (st', coll, .error .dataCorrupted)
      | some records => (st', coll.add records gen, .ok ())

/-- `Store.save`: stringifies `coll.records`, encrypts it with the cached
password, and writes it to the source under the collection's key. -/
def Store.saveOp (st : Store β) (coll : Collection) (src : Source β) :
    Except OpErr (Source β) :=
  src.set (Store.getKey coll) (encrypt st.password (stringify coll.records))

/-- `Collection.lock`: empties the record sequence and nulls the store's
password.  (The uuid map is not touched by the source.) -/
def lockOp (st : Store β) (c : Collection) : Store β × Collection :=
  ({ st with password := none }, { c with records := [] })

/-- `Collection.sync`: fetch from the remote source, then save to the
store's default (local) source, then save to the remote source; each
phase runs only from the previous phase's success callback, and every
phase's `fail` callback is the caller's `opts.fail`.  Returns the final
store (its default source updated by phase two), the collection, the
remote source, and the outcome. -/
def Collection.sync (st : Store β) (c : Collection) (remote : Source β)
    (gen : Nat → String) :
    Store β × Collection × Source β × Except OpErr Unit :=
  match Store.fetchOp decrypt parse st c remote none gen with
  | (st', c', .error e) => (st', c', remote, .error e)
  | (st', c', .ok _) =>
    match Store.saveOp encrypt stringify st' c' st'.defaultSource with
    | .error e => (st', c', remote, .error e)
    | .ok local' =>
      let st'' := { st' with defaultSource := local' }
      match Store.saveOp encrypt stringify st'' c' remote with
      | .error e => (st'', c', remote, .error e)
      | .ok remote' => (st'', c', remote', .ok ())

end StoreModel

/-! ### Concrete sample data for witnesses and counterexamples -/

/-- A fixed uuid supply for concrete runs. -/
def genX : Nat → String := fun n => "fresh" ++ toString n

/-- A sample record, uuid `"u"`, updated at time 1. -/
def recOld : Record := ⟨some "u", some "old", none, none, some 1, none⟩

/-- A newer version of `recOld`: same uuid, updated at time 2. -/
def recNew : Record := ⟨some "u", some "new", none, none, some 2, none⟩

/-- A record with uuid `"u"` and no `updated` timestamp. -/
def recNoStamp : Record := ⟨some "u", some "stampless", none, none, none, none⟩

/-- A collection holding exactly `recOld`, consistently indexed. -/
def collOld : Collection := ⟨"default", [recOld], [("u", recOld)]⟩

/-- A trivial store over `Unit` blobs, used to run `lockOp` concretely. -/
def stUnit : Store Unit := ⟨⟨[], true⟩, some "pw"⟩

/-
A transparent codec stand-in satisfying the assumptions the claims state:
the blob is the password paired with the plaintext, decryption checks the
password, serialization is the identity.
-/

/-- Concrete blob type for witnesses: password paired with plaintext. -/
def encryptT (pw : Option String) (x : List Record) :
    Option String × List Record := (pw, x)

/-- Concrete decryption: rejects a wrong password, as the spec assumes of
the authenticated codec. -/
def decryptT (pw : Option String) (b : Option String × List Record) :
    Option (List Record) :=
  if b.1 = pw then some b.2 else none

/-- Concrete serialization (identity). -/
def stringifyT : List Record → List Record := id

/-- Concrete parse (always succeeds). -/
def parseT : List Record → Option (List Record) := some

/-- An empty, online source for concrete blobs. -/
def srcEmpty : Source (Option String × List Record) := ⟨[], true⟩

/-- A source already holding a blob for `collOld` encrypted under `"pw"`. -/
def srcSaved : Source (Option String × List Record) :=
  ⟨[("coll_default", (some "pw", [recOld]))], true⟩

/-- A store whose default source is `srcSaved` and whose cached password is
`"pw"`. -/
def stT : Store (Option String × List Record) := ⟨srcSaved, some "pw"⟩

/-- A store with an empty default (local) source and cached password
`"pw"`. -/
def stLocalEmpty : Store (Option String × List Record) := ⟨srcEmpty, some "pw"⟩

/-! ### Helper lemmas -/

lemma record_update_uuid_eq (r : Record) (u : String) (h : r.uuid = some u) :
    { r with uuid := some u } = r := by
  cases r
  simp_all

lemma replaceFirst_of_mem {l : List Record} {e : Record} (r : Record)
    (h : e ∈ l) :
    ∃ i, l[i]? = some e ∧ replaceFirst l e r = l.set i r := by
  induction l with
  | nil => cases h
  | cons x xs ih =>
    by_cases hx : x = e
    · subst hx
      exact ⟨0, by simp, by simp [replaceFirst]⟩
    · have hmem : e ∈ xs := by
        cases List.mem_cons.mp h with
        | inl h0 => exact absurd h0.symm hx
        | inr h0 => exact h0
      obtain ⟨i, hi, hrep⟩ := ih hmem
      exact ⟨i + 1, by simpa using hi, by simp [replaceFirst, hx, hrep]⟩

/-- `Collection.add` with a single record that already carries a non-empty
uuid, unfolded to its three branches. -/
lemma add_single (c : Collection) (r : Record) (u : String) (gen : Nat → String)
    (hu : r.uuid = some u) (hne : u ≠ "") :
    c.add [r] gen =
      match mapGet c.uuidMap u with
      | some existing =>
        if shouldReplace r existing then
          { c with uuidMap := mapSet c.uuidMap u r,
                   records := replaceFirst c.records existing r }
        else c
      | none =>
        { c with uuidMap := mapSet c.uuidMap u r,
                 records := c.records ++ [r] } := by
  have hres : resolveUuid r gen 0 = u := by simp [resolveUuid, hu, hne]
  have heta : { r with uuid := some u } = r := record_update_uuid_eq r u hu
  unfold Collection.add Collection.addRaw
  simp only [List.map_cons, List.map_nil, addLoop, hres, heta]
  cases hm : mapGet c.uuidMap u with
  | none => simp [addLoop]
  | some existing =>
    by_cases hrep : shouldReplace r existing
    · simp [hrep, addLoop]
    · simp [hrep, addLoop]

lemma mapGet_mapSet_self {A : Type} (m : List (String × A)) (k : String) (v : A) :
    mapGet (mapSet m k v) k = some v := by
  induction m with
  | nil => simp [mapGet, mapSet]
  | cons kv rest ih =>
    by_cases h : kv.1 = k
    · simp [mapSet, h, mapGet]
    · cases kv
      simp_all [mapSet, mapGet]

lemma mapGet_mapSet_ne {A : Type} (m : List (String × A)) {k k' : String} (v : A)
    (h : k' ≠ k) : mapGet (mapSet m k v) k' = mapGet m k' := by
  induction m with
  | nil => simp [mapSet, mapGet, Ne.symm h]
  | cons kv rest ih =>
    obtain ⟨a, b⟩ := kv
    by_cases ha : a = k
    · subst ha
      simp [mapSet, mapGet, Ne.symm h]
    · by_cases ha' : a = k'
      · subst ha'
        simp [mapSet, mapGet, h, ha]
      · simp [mapSet, mapGet, ha, ha', ih]

/-- Adding records whose (non-empty) uuids are pairwise distinct and all
absent from the uuid map appends them, in order, to the record sequence,
and the loop completes. -/
lemma addLoop_fresh_append (gen : Nat → String) (m : List (String × Record))
    (recs : List Record) (l : List Record) (i : Nat)
    (hwf : ∀ r ∈ l, ∃ u, r.uuid = some u ∧ u ≠ "" ∧ mapGet m u = none)
    (hnodup : (l.map Record.uuid).Nodup) :
    (addLoop gen m recs (l.map some) i).2.1 = recs ++ l ∧
    (addLoop gen m recs (l.map some) i).2.2 = true := by
  induction l generalizing m recs i with
  | nil => simp [addLoop]
  | cons r rest ih =>
    rw [List.map_cons] at hnodup
    obtain ⟨hnotmem, hnodup'⟩ := List.nodup_cons.mp hnodup
    obtain ⟨u, hu, hne, habs⟩ := hwf r (List.mem_cons_self r rest)
    have hres : resolveUuid r gen i = u := by simp [resolveUuid, hu, hne]
    have heta : { r with uuid := some u } = r := record_update_uuid_eq r u hu
    rw [List.map_cons]
    rw [show addLoop gen m recs (some r :: rest.map some) i
        = addLoop gen (mapSet m u r) (recs ++ [r]) (rest.map some) (i + 1) from by
      simp only [addLoop, hres, heta, habs]]
    have hwf' : ∀ r' ∈ rest, ∃ u', r'.uuid = some u' ∧ u' ≠ "" ∧
        mapGet (mapSet m u r) u' = none := by
      intro r' hr'
      obtain ⟨u', hu', hne', habs'⟩ := hwf r' (List.mem_cons_of_mem r hr')
      refine ⟨u', hu', hne', ?_⟩
      have hneq : u' ≠ u := by
        intro hEq
        subst hEq
        have hmem : Record.uuid r ∈ rest.map Record.uuid := by
          rw [hu, ← hu']
          exact List.mem_map_of_mem Record.uuid hr'
        exact hnotmem hmem
      rw [mapGet_mapSet_ne m r hneq]
      exact habs'
    have hih := ih (mapSet m u r) (recs ++ [r]) (i + 1) hwf' hnodup'
    constructor
    · rw [hih.1]
      simp
    · exact hih.2

lemma add_fresh_records (c : Collection) (l : List Record) (gen : Nat → String)
    (hwf : ∀ r ∈ l, ∃ u, r.uuid = some u ∧ u ≠ "" ∧ mapGet c.uuidMap u = none)
    (hnodup : (l.map Record.uuid).Nodup) :
    (c.add l gen).records = c.records ++ l := by
  have h := addLoop_fresh_append gen c.uuidMap c.records l 0 hwf hnodup
  unfold Collection.add Collection.addRaw
  rcases hal : addLoop gen c.uuidMap c.records (l.map some) 0 with ⟨m, recs, ok⟩
  rw [hal] at h
  obtain ⟨h1, h2⟩ := h
  cases ok with
  | false => exact Bool.noConfusion h2
  | true => simpa using h1

/-- A failing source read surfaces through `Store.fetch` unchanged, with
the store (its password re-cached to itself) and the collection
untouched. -/
lemma fetchOp_get_error {α β : Type} (decrypt : Option String → β → Option α)
    (parse : α → Option (List Record)) (st : Store β) (c : Collection)
    (src : Source β) (gen : Nat → String) (e : OpErr)
    (he : src.get (Store.getKey c) = .error e) :
    Store.fetchOp decrypt parse st c src none gen = (st, c, .error e) := by
  unfold Store.fetchOp
  simp only [resolvePassword, he]

/-! ### Claims -/

/-- C1: for a call to `Collection.add` with an incoming record whose uuid
already exists in the collection: (a) if the incoming record's `updated`
timestamp is strictly later than the existing record's, the incoming record
replaces the existing one at the same position in the record sequence and
the uuid index is updated to point to it; (b) if the incoming timestamp is
earlier or equal, the incoming record is discarded and the collection is
unchanged; (c) if no record with that uuid exists, the incoming record is
appended and indexed. -/
theorem C1_add_lww (c : Collection) (r e : Record) (u : String) (t t' : Nat)
    (gen : Nat → String) (hu : r.uuid = some u) (hne : u ≠ "") :
    (mapGet c.uuidMap u = some e → e ∈ c.records →
      r.updated = some t → e.updated = some t' → t' < t →
      mapGet (c.add [r] gen).uuidMap u = some r ∧
      ∃ i, c.records[i]? = some e ∧
        (c.add [r] gen).records = c.records.set i r) ∧
    (mapGet c.uuidMap u = some e →
      r.updated = some t → e.updated = some t' → t ≤ t' →
      c.add [r] gen = c) ∧
    (mapGet c.uuidMap u = none →
      mapGet (c.add [r] gen).uuidMap u = some r ∧
      (c.add [r] gen).records = c.records ++ [r]) := by
  have hsingle := add_single c r u gen hu hne
  refine ⟨?_, ?_, ?_⟩
  · intro hm hmem hrt het hlt
    have hrep : shouldReplace r e = true := by
      simp [shouldReplace, hrt, het, hlt]
    rw [hsingle, hm]
    simp only [hrep, if_true]
    obtain ⟨i, hi, hrf⟩ := replaceFirst_of_mem r hmem
    exact ⟨mapGet_mapSet_self _ _ _, i, hi, hrf⟩
  · intro hm hrt het hle
    have hrep : shouldReplace r e = false := by
      simp [shouldReplace, hrt, het, Nat.not_lt.mpr hle]
    rw [hsingle, hm]
    simp [hrep]
  · intro hm
    rw [hsingle, hm]
    exact ⟨mapGet_mapSet_self _ _ _, rfl⟩

/-- C1 witness: the newer `recNew` replaces `recOld` in `collOld` at its
position and the index points to it. -/
theorem C1_add_lww_witness :
    mapGet ((collOld.add [recNew] genX).uuidMap) "u" = some recNew ∧
    ∃ i, collOld.records[i]? = some recOld ∧
      (collOld.add [recNew] genX).records = collOld.records.set i recNew := by
  exact (C1_add_lww collOld recNew recOld "u" 2 1 genX rfl (by decide)).1 rfl
    (by simp [collOld]) rfl rfl (by decide)

/-- C9: an incoming record with no `updated` timestamp whose uuid already
exists in the collection is discarded and the existing record kept,
whatever the existing record's timestamp (absent, older, or newer): the
collection is unchanged. -/
theorem C9_no_stamp_discarded (c : Collection) (r e : Record) (u : String)
    (gen : Nat → String) (hu : r.uuid = some u) (hne : u ≠ "")
    (hupd : r.updated = none) (hm : mapGet c.uuidMap u = some e) :
    c.add [r] gen = c := by
  have hrep : shouldReplace r e = false := by
    unfold shouldReplace
    rw [hupd]
  rw [add_single c r u gen hu hne, hm]
  simp [hrep]

/-- C9 witness: a stampless copy of uuid `"u"` is discarded against
`collOld`. -/
theorem C9_no_stamp_discarded_witness :
    collOld.add [recNoStamp] genX = collOld :=
  C9_no_stamp_discarded collOld recNoStamp recOld "u" genX rfl (by decide) rfl rfl

/-- The in-place tombstone mutation is visible through the uuid index: if
the index maps `u` to `rec`, after `remove rec` it maps `u` to the
tombstone. -/
lemma mapGet_remove_uuidMap {m : List (String × Record)} {u : String}
    {rec : Record} (now : Nat) (h : mapGet m u = some rec) :
    mapGet (m.map fun kv => if kv.2 = rec then (kv.1, removeRecord rec now) else kv) u
      = some (removeRecord rec now) := by
  induction m with
  | nil => simp [mapGet] at h
  | cons kv rest ih =>
    obtain ⟨k, v⟩ := kv
    rw [List.map_cons]
    show mapGet ((if v = rec then (k, removeRecord rec now) else (k, v)) :: _) u = _
    by_cases hvrec : v = rec
    · rw [if_pos hvrec]
      by_cases hk : k = u
      · rw [mapGet, if_pos hk]
      · rw [mapGet, if_neg hk] at h
        rw [mapGet, if_neg hk]
        exact ih h
    · rw [if_neg hvrec]
      by_cases hk : k = u
      · rw [mapGet, if_pos hk] at h
        exact absurd (Option.some.inj h) hvrec
      · rw [mapGet, if_neg hk] at h
        rw [mapGet, if_neg hk]
        exact ih h

/-- C5: after `remove` turns `rec` into a tombstone (stamped `now`), adding
a copy of it with the same uuid, an earlier `updated` timestamp and
`removed = false` changes nothing: the collection stays as it was after the
removal and the uuid index still holds the tombstone. -/
theorem C5_tombstone_persistence (c : Collection) (rec r' : Record)
    (u : String) (now t : Nat) (gen : Nat → String)
    (hm : mapGet c.uuidMap u = some rec)
    (hu' : r'.uuid = some u) (hne : u ≠ "")
    (ht : r'.updated = some t) (hlt : t < now)
    (_hrm : r'.removed = some false) :
    (c.remove rec now).add [r'] gen = c.remove rec now ∧
    mapGet ((c.remove rec now).add [r'] gen).uuidMap u
      = some (removeRecord rec now) := by
  have hm' : mapGet (c.remove rec now).uuidMap u = some (removeRecord rec now) :=
    mapGet_remove_uuidMap now hm
  have hrep : shouldReplace r' (removeRecord rec now) = false := by
    simp [shouldReplace, ht, removeRecord, Nat.not_lt.mpr (Nat.le_of_lt hlt)]
  have hadd : (c.remove rec now).add [r'] gen = c.remove rec now := by
    rw [add_single _ r' u gen hu' hne, hm']
    simp [hrep]
  exact ⟨hadd, by rw [hadd]; exact hm'⟩

/-- C5 witness: after tombstoning `recOld` at time 5, re-adding the old
copy (updated at 1, `removed` absent—here an explicit `removed = false`
copy) leaves the tombstone in place. -/
theorem C5_tombstone_persistence_witness :
    (collOld.remove recOld 5).add
        [⟨some "u", some "old", none, none, some 1, some false⟩] genX
      = collOld.remove recOld 5 ∧
    mapGet ((collOld.remove recOld 5).add
        [⟨some "u", some "old", none, none, some 1, some false⟩] genX).uuidMap "u"
      = some (removeRecord recOld 5) :=
  C5_tombstone_persistence collOld recOld _ "u" 5 1 genX rfl rfl (by decide)
    rfl (by decide) rfl

/-- C6: `remove` turns the record into a tombstone that carries nothing but
`uuid`, `updated = now` and `removed = true`; the record stays in the
record sequence (same length, tombstone present wherever the record was). -/
theorem C6_remove_tombstone (c : Collection) (rec : Record) (now : Nat) :
    (removeRecord rec now).uuid = rec.uuid ∧
    (removeRecord rec now).name = none ∧
    (removeRecord rec now).fields = none ∧
    (removeRecord rec now).tags = none ∧
    (removeRecord rec now).updated = some now ∧
    (removeRecord rec now).removed = some true ∧
    (c.remove rec now).records.length = c.records.length ∧
    (rec ∈ c.records → removeRecord rec now ∈ (c.remove rec now).records) := by
  refine ⟨rfl, rfl, rfl, rfl, rfl, rfl, by simp [Collection.remove], ?_⟩
  intro hmem
  simp only [Collection.remove, List.mem_map]
  exact ⟨rec, hmem, by simp⟩

/-- C6 witness: tombstoning `recOld` in `collOld` at time 5. -/
theorem C6_remove_tombstone_witness :
    (removeRecord recOld 5).name = none ∧
    (collOld.remove recOld 5).records.length = collOld.records.length ∧
    removeRecord recOld 5 ∈ (collOld.remove recOld 5).records := by
  have h := C6_remove_tombstone collOld recOld 5
  exact ⟨h.2.1, h.2.2.2.2.2.2.1, h.2.2.2.2.2.2.2 (by decide)⟩

/-- C2 (failing input): `lock` empties `records` but leaves `uuidMap`
untouched, so after `add recOld; lock` the uuid index still maps `"u"` to
`recOld` while the record sequence is empty — the index points to a record
not present in the sequence.  Worse, a subsequent `add` of the newer
`recNew` for that uuid is silently dropped: the record sequence stays empty
while the index is updated to `recNew`.  This refutes the claimed
index/records consistency invariant for operation sequences containing
`lock`. -/
theorem C2_lock_breaks_uuid_index :
    ((lockOp stUnit ((Collection.mk0 "default").add [recOld] genX)).2.records = []) ∧
    (mapGet (lockOp stUnit ((Collection.mk0 "default").add [recOld] genX)).2.uuidMap "u"
      = some recOld) ∧
    (((lockOp stUnit ((Collection.mk0 "default").add [recOld] genX)).2.add
        [recNew] genX).records = []) ∧
    (mapGet ((lockOp stUnit ((Collection.mk0 "default").add [recOld] genX)).2.add
        [recNew] genX).uuidMap "u" = some recNew) := by
  refine ⟨rfl, rfl, rfl, rfl⟩

/-- C7 (counterexample): an `add` that throws partway (here: the second
entry is a JS `null`) leaves the record sequence unchanged, but the uuid
index has already been mutated in place for the entries processed before
the failure — the observable collection state is NOT entirely unchanged. -/
theorem C7_partial_failure_counterexample :
    (((Collection.mk0 "default").addRaw [some recOld, none] genX).2 = false) ∧
    (((Collection.mk0 "default").addRaw [some recOld, none] genX).1.records
      = (Collection.mk0 "default").records) ∧
    (((Collection.mk0 "default").addRaw [some recOld, none] genX).1.uuidMap
      ≠ (Collection.mk0 "default").uuidMap) := by
  refine ⟨rfl, rfl, by decide⟩

/-- C7 (amended): `add` works on a snapshot copy of the record sequence and
commits it only at the end, so on a mid-merge failure the record sequence
is left unchanged; the uuid index, mutated in place during the loop, may
retain updates for entries processed before the failure. -/
theorem C7_records_unchanged_on_failure (c : Collection)
    (entries : List (Option Record)) (gen : Nat → String)
    (h : (c.addRaw entries gen).2 = false) :
    (c.addRaw entries gen).1.records = c.records := by
  unfold Collection.addRaw at h ⊢
  rcases hal : addLoop gen c.uuidMap c.records entries 0 with ⟨m, recs, ok⟩
  cases ok with
  | false => rfl
  | true =>
    rw [hal] at h
    exact Bool.noConfusion h

/-- C7 witness: the failing run of the counterexample input leaves the
record sequence unchanged. -/
theorem C7_records_unchanged_on_failure_witness :
    (((Collection.mk0 "default").addRaw [some recOld, none] genX).1.records
      = (Collection.mk0 "default").records) :=
  C7_records_unchanged_on_failure (Collection.mk0 "default")
    [some recOld, none] genX rfl

/-- C10: `Store.fetch` caches the resolved password (explicit override, or
the stored one) on the store unconditionally — the assignment runs whether
or not the source read, decryption or parse subsequently fails, including
when the fetch fails because that very password is wrong — so subsequent
`save`/`fetch` calls use it. -/
theorem C10_password_cached {α β : Type} (decrypt : Option String → β → Option α)
    (parse : α → Option (List Record)) (st : Store β) (coll : Collection)
    (src : Source β) (optPwd : Option String) (gen : Nat → String) :
    (Store.fetchOp decrypt parse st coll src optPwd gen).1.password
      = resolvePassword optPwd st.password := by
  unfold Store.fetchOp
  cases hg : src.get (Store.getKey coll) with
  | error e => simp [hg]
  | ok data =>
    cases hd : decrypt (resolvePassword optPwd st.password) data with
    | none => simp [hg, hd]
    | some pt =>
      cases hp : parse pt with
      | none => simp [hg, hd, hp]
      | some recs => simp [hg, hd, hp]

/-- C8: fetching with a password the blob was not encrypted with (one the
codec's decryption rejects) fails with the authentication-failure error and
leaves the collection untouched — no corrupted or partial records are
delivered. -/
theorem C8_wrong_password_fails {α β : Type}
    (decrypt : Option String → β → Option α)
    (parse : α → Option (List Record)) (st : Store β) (coll : Collection)
    (src : Source β) (p : String) (blob : β) (gen : Nat → String)
    (hget : src.get (Store.getKey coll) = .ok blob)
    (hdec : decrypt (some p) blob = none) :
    Store.fetchOp decrypt parse st coll src (some p) gen
      = ({ st with password := some p }, coll, .error .authenticationFailed) := by
  unfold Store.fetchOp
  simp [resolvePassword, hget, hdec]

/-- C8 witness: fetching `srcSaved` (encrypted under `"pw"`) with password
`"wrong"` fails with `authenticationFailed` and the collection is
unchanged. -/
theorem C8_wrong_password_fails_witness :
    Store.fetchOp decryptT parseT stT collOld srcSaved (some "wrong") genX
      = ({ stT with password := some "wrong" }, collOld,
          .error .authenticationFailed) :=
  C8_wrong_password_fails decryptT parseT stT collOld srcSaved "wrong"
    (some "pw", [recOld]) genX rfl rfl

/-- C3: saving a collection `C` under password `p` and fetching the
persisted blob back with `p` into an empty collection (same name) yields
exactly `C`'s record sequence, field for field — given the claim's stated
assumption that the codec round-trips (`decrypt p (encrypt p x) = x`),
that serialization round-trips, and that `C` is well-formed (non-empty,
pairwise-distinct uuids). -/
theorem C3_save_fetch_roundtrip {α β : Type}
    (encrypt : Option String → α → β) (decrypt : Option String → β → Option α)
    (stringify : List Record → α) (parse : α → Option (List Record))
    (st st₂ : Store β) (C : Collection) (src src' : Source β)
    (p : String) (gen : Nat → String)
    (hpwd : st.password = some p)
    (hcodec : ∀ x : α, decrypt (some p) (encrypt (some p) x) = some x)
    (hjson : parse (stringify C.records) = some C.records)
    (hwf : ∀ r ∈ C.records, ∃ u, r.uuid = some u ∧ u ≠ "")
    (hnodup : (C.records.map Record.uuid).Nodup)
    (hsave : Store.saveOp encrypt stringify st C src = .ok src') :
    (Store.fetchOp decrypt parse st₂ (Collection.mk0 C.name) src'
        (some p) gen).2.1.records = C.records ∧
    (Store.fetchOp decrypt parse st₂ (Collection.mk0 C.name) src'
        (some p) gen).2.2 = .ok () := by
  obtain ⟨data, online⟩ := src
  cases online with
  | false => exact Except.noConfusion hsave
  | true =>
    have hsrc' : src' = ⟨mapSet data (Store.getKey C)
        (encrypt st.password (stringify C.records)), true⟩ := by
      unfold Store.saveOp Source.set at hsave
      simpa using hsave.symm
    have hget : src'.get (Store.getKey (Collection.mk0 C.name))
        = .ok (encrypt st.password (stringify C.records)) := by
      rw [hsrc']
      unfold Source.get
      simp [mapGet_mapSet_self, Store.getKey, Collection.mk0]
    have hdec : decrypt (some p) (encrypt st.password (stringify C.records))
        = some (stringify C.records) := by
      rw [hpwd]
      exact hcodec _
    have hadd : ((Collection.mk0 C.name).add C.records gen).records
        = C.records := by
      rw [add_fresh_records]
      · simp [Collection.mk0]
      · intro r hr
        obtain ⟨u, hu, hne⟩ := hwf r hr
        exact ⟨u, hu, hne, rfl⟩
      · exact hnodup
    unfold Store.fetchOp
    simp only [resolvePassword, hget, hdec, hjson]
    exact ⟨hadd, trivial⟩

/-- C3 witness: `collOld` saved under `"pw"` into an empty source gives
`srcSaved`; fetching it back with `"pw"` into a fresh empty collection
reproduces `collOld`'s records. -/
theorem C3_save_fetch_roundtrip_witness :
    (Store.fetchOp decryptT parseT stT (Collection.mk0 collOld.name) srcSaved
        (some "pw") genX).2.1.records = collOld.records ∧
    (Store.fetchOp decryptT parseT stT (Collection.mk0 collOld.name) srcSaved
        (some "pw") genX).2.2 = .ok () := by
  refine C3_save_fetch_roundtrip encryptT decryptT stringifyT parseT stT stT
    collOld srcEmpty srcSaved "pw" genX rfl
    (fun x => by simp [decryptT, encryptT]) rfl ?_ (by simp [collOld, recOld])
    rfl
  intro r hr
  have hrec : r = recOld := by simpa [collOld] using hr
  subst hrec
  exact ⟨"u", rfl, by decide⟩

/-- C4 (counterexample): with the remote source lacking the collection's
key, `sync` aborts immediately with the not-found error — nothing is saved
to the local (default) source and nothing is pushed to the remote, refuting
the claim that a `NotFound` remote fetch is treated as an empty remote
collection and the sync proceeds to the remaining phases. -/
theorem C4_notfound_aborts_counterexample :
    Collection.sync encryptT decryptT stringifyT parseT stT collOld srcEmpty genX
      = (stT, collOld, srcEmpty, .error .srcNotFound) := rfl

/-- C4 (amended): `sync` runs its three phases in order — fetch from the
remote source, save to the default (local) source, save to the remote
source — and ANY failure in any phase, including `NotFound` from the
remote fetch, aborts the sync without attempting the remaining phases and
surfaces the underlying error to the caller: (1) a remote fetch failure
leaves store, collection and remote untouched; (2) a local-save failure
leaves the remote unwritten; (3) a remote-save failure leaves the remote
unwritten with the local already committed; (4) when every phase succeeds
the sync reports success with both sources updated. -/
theorem C4_sync_aborts_amended {α β : Type}
    (encrypt : Option String → α → β) (decrypt : Option String → β → Option α)
    (stringify : List Record → α) (parse : α → Option (List Record))
    (st : Store β) (c : Collection) (remote : Source β) (gen : Nat → String) :
    (∀ e, remote.get (Store.getKey c) = .error e →
      Collection.sync encrypt decrypt stringify parse st c remote gen
        = (st, c, remote, .error e)) ∧
    (∀ c₁ e,
      Store.fetchOp decrypt parse st c remote none gen = (st, c₁, .ok ()) →
      Store.saveOp encrypt stringify st c₁ st.defaultSource = .error e →
      Collection.sync encrypt decrypt stringify parse st c remote gen
        = (st, c₁, remote, .error e)) ∧
    (∀ c₁ local' e,
      Store.fetchOp decrypt parse st c remote none gen = (st, c₁, .ok ()) →
      Store.saveOp encrypt stringify st c₁ st.defaultSource = .ok local' →
      Store.saveOp encrypt stringify { st with defaultSource := local' } c₁
          remote = .error e →
      Collection.sync encrypt decrypt stringify parse st c remote gen
        = ({ st with defaultSource := local' }, c₁, remote, .error e)) ∧
    (∀ c₁ local' remote',
      Store.fetchOp decrypt parse st c remote none gen = (st, c₁, .ok ()) →
      Store.saveOp encrypt stringify st c₁ st.defaultSource = .ok local' →
      Store.saveOp encrypt stringify { st with defaultSource := local' } c₁
          remote = .ok remote' →
      Collection.sync encrypt decrypt stringify parse st c remote gen
        = ({ st with defaultSource := local' }, c₁, remote', .ok ())) := by
  refine ⟨?_, ?_, ?_, ?_⟩
  · intro e he
    unfold Collection.sync
    rw [fetchOp_get_error decrypt parse st c remote gen e he]
  · intro c₁ e hf hs
    unfold Collection.sync
    rw [hf]
    simp only [hs]
  · intro c₁ local' e hf hs1 hs2
    unfold Collection.sync
    rw [hf]
    simp only [hs1, hs2]
  · intro c₁ local' remote' hf hs1 hs2
    unfold Collection.sync
    rw [hf]
    simp only [hs1, hs2]

/-- C4 witness: a fully successful concrete sync (remote holds `collOld`'s
blob, local starts empty) runs all three phases and commits the merged
blob to both sources. -/
theorem C4_sync_aborts_amended_witness :
    Collection.sync encryptT decryptT stringifyT parseT stLocalEmpty collOld
        srcSaved genX
      = ({ stLocalEmpty with defaultSource := srcSaved }, collOld, srcSaved,
          .ok ()) :=
  (C4_sync_aborts_amended encryptT decryptT stringifyT parseT stLocalEmpty
    collOld srcSaved genX).2.2.2 collOld srcSaved srcSaved rfl rfl rfl

end Padlock
